import Mathlib

/-!
Verification of the Expert-Tune repository core: the SQLite-backed user and
message stores (`auth_db.py`), the JSONL dataset builder (`finetune.py`),
and the Streamlit orchestration handlers (`app.py`), shallowly embedded as
pure Lean functions over explicit state.
-/

namespace ExpertTune

/-- One chat message as returned by `load_history`: a dict with keys
`role` and `content`. -/
structure Msg where
  role : String
  content : String
deriving Repr, DecidableEq

/-- One training record written to the JSONL dataset: a dict with keys
`prompt` and `completion` (`finetune.py`, line 49). -/
structure TrainingRecord where
  prompt : String
  completion : String
deriving Repr, DecidableEq

/-- The f-string prompt template of `finetune.py` line 47:
`f"შექმენი {domain} პასუხი.\n{history[i]['content']}"`. -/
def prompt_template (domain : String) (question_content : String) : String :=
  "შექმენი " ++ domain ++ " პასუხი.\n" ++ question_content

/-- The pairing loop of `build_dataset_from_history` (`finetune.py` lines
45-49): `for i in range(0, len(history), 2)` visits the indices
`0, 2, 4, …` below `len(history)` — that is `List.range' 0 ⌈n/2⌉ 2` — and
emits a record exactly when `i + 1 < len(history)`, with
`prompt = template(domain, history[i].content)` and
`completion = history[i+1].content`. -/
def build_records (history : List Msg) (domain : String) : List TrainingRecord :=
  (List.range' 0 ((history.length + 1) / 2) 2).filterMap fun i =>
    match history[i]?, history[i + 1]? with
    | some q, some a => some ⟨prompt_template domain q.content, a.content⟩
    | _, _ => none

/-- One hexadecimal digit, lower case, as produced by Python's `'%04x'`
formatting inside `json.dumps` short-string escaping. -/
def hexDigit (n : Nat) : Char :=
  match n with
  | 0 => '0' | 1 => '1' | 2 => '2' | 3 => '3'
  | 4 => '4' | 5 => '5' | 6 => '6' | 7 => '7'
  | 8 => '8' | 9 => '9' | 10 => 'a' | 11 => 'b'
  | 12 => 'c' | 13 => 'd' | 14 => 'e' | _ => 'f'

/-- Escaping of one character inside a JSON string, as done by
`json.dumps(..., ensure_ascii=False)`: `"` and `\` are backslash-escaped,
the five named control characters get their short escapes, the remaining
control characters below U+0020 become `\u00XX`, and every other
character — in particular all non-ASCII text — is emitted verbatim. -/
def jsonEscapeChar (c : Char) : String :=
  if c = '"' then "\\\""
  else if c = '\\' then "\\\\"
  else if c = '\n' then "\\n"
  else if c = '\r' then "\\r"
  else if c = '\t' then "\\t"
  else if c = '\x08' then "\\b"
  else if c = '\x0c' then "\\f"
  else if c.toNat < 0x20 then
    String.mk ['\\', 'u', '0', '0', hexDigit (c.toNat / 16), hexDigit (c.toNat % 16)]
  else String.singleton c

/-- JSON escaping of a character list, joining the per-character escapes. -/
def jsonEscapeList : List Char → String
  | [] => ""
  | c :: cs => jsonEscapeChar c ++ jsonEscapeList cs

/-- JSON escaping of a whole string. -/
def jsonEscape (s : String) : String :=
  jsonEscapeList s.data

/-- `json.dumps(record, ensure_ascii=False)` for the two-key dict built at
`finetune.py` line 49, with Python's default separators `", "` and `": "`. -/
def dumpsRecord (r : TrainingRecord) : String :=
  "\x7b\"prompt\": \"" ++ jsonEscape r.prompt ++ "\", \"completion\": \""
    ++ jsonEscape r.completion ++ "\"\x7d"

/-- `build_dataset_from_history` (`finetune.py` lines 29-50): the file is
opened in mode `"w"` and each record is written as one `json.dumps` line
followed by `"\n"`, in loop order.  The value is the full file content the
call leaves behind. -/
def build_dataset_from_history (history : List Msg) (domain : String) : String :=
  String.join ((build_records history domain).map fun r => dumpsRecord r ++ "\n")

/-- Writing the dataset file: `open(output_file, "w")` truncates, so the
content left on disk is independent of any prior content (`none` models an
absent file). -/
def write_dataset (prior : Option String) (history : List Msg) (domain : String) :
    Option String :=
  match prior with
  | _ => some (build_dataset_from_history history domain)

/-- A row of the `users` table (`auth_db.py` lines 43-47):
`username TEXT PRIMARY KEY, password_hash TEXT`. -/
structure UserRow where
  username : String
  password_hash : String
deriving Repr, DecidableEq

/-- `add_user` (`auth_db.py` lines 69-84): `INSERT OR IGNORE` into a table
whose primary key is `username` inserts the row only when no row with that
username exists; otherwise the statement is ignored and the call is a no-op. -/
def add_user (users : List UserRow) (username : String) (pwd_hash : String) :
    List UserRow :=
  if users.any fun r => r.username == username then users
  else users ++ [⟨username, pwd_hash⟩]

/-- `get_users` (`auth_db.py` lines 127-143): `SELECT username, password_hash
FROM users` with no ORDER BY returns the stored rows (SQLite scans them in
rowid, i.e. insertion, order). -/
def get_users (users : List UserRow) : List UserRow :=
  users

/-- A row of the `chat_history` table (`auth_db.py` lines 55-62), with the
`AUTOINCREMENT` id assigned by the store (the timestamp column is never
read back and is omitted). -/
structure ChatRow where
  id : Nat
  username : String
  domain : String
  role : String
  content : String
deriving Repr, DecidableEq

/-- The message-store state: the `chat_history` rows together with the next
`AUTOINCREMENT` id, which is strictly larger than every assigned id. -/
structure ChatDB where
  rows : List ChatRow
  nextId : Nat
deriving Repr, DecidableEq

/-- The empty `chat_history` table created by `init_db` (`auth_db.py` lines
29-66); SQLite AUTOINCREMENT starts assigning ids at 1. -/
def init_db : ChatDB :=
  ⟨[], 1⟩

/-- `save_msg` (`auth_db.py` lines 87-102): one `INSERT` appends a row whose
id is the next AUTOINCREMENT value. -/
def save_msg (db : ChatDB) (username domain role content : String) : ChatDB :=
  ⟨db.rows ++ [⟨db.nextId, username, domain, role, content⟩], db.nextId + 1⟩

/-- Stable insertion of a row into a list kept in ascending id order; used
to model SQLite's `ORDER BY id`. -/
def insertById (r : ChatRow) : List ChatRow → List ChatRow
  | [] => [r]
  | s :: rest => if r.id ≤ s.id then r :: s :: rest else s :: insertById r rest

/-- Sorting by ascending id, modelling `ORDER BY id`. -/
def sortById : List ChatRow → List ChatRow
  | [] => []
  | r :: rest => insertById r (sortById rest)

/-- `load_history` (`auth_db.py` lines 105-124): `SELECT role, content FROM
chat_history WHERE username = ? AND domain = ? ORDER BY id` followed by the
dict comprehension over the returned `(role, content)` rows. -/
def load_history (db : ChatDB) (username domain : String) : List Msg :=
  ((sortById (db.rows.filter fun r =>
      r.username == username && r.domain == domain)).map
    fun r => ⟨r.role, r.content⟩)

/-- One call of `save_msg`, as issued by the chat handler in `app.py`. -/
structure SaveOp where
  username : String
  domain : String
  role : String
  content : String
deriving Repr, DecidableEq

/-- Replay a sequence of `save_msg` calls against a store state. -/
def applyOps (db : ChatDB) (ops : List SaveOp) : ChatDB :=
  ops.foldl (fun s o => save_msg s o.username o.domain o.role o.content) db

/-- The in-memory transcript plus the durable store, as manipulated by the
chat submission handler in `app.py` (`st.session_state[key]` and the
SQLite store). -/
structure SessionState where
  transcript : List Msg
  db : ChatDB
deriving Repr, DecidableEq

/-- The fixed localized apology substituted when the OpenAI call raises
(`app.py` line 180). -/
def apology_text : String :=
  "სამწუხაროდ, AI‑თან დაკავშირება ვერ მოხერხდა."

/-- The chat submission handler (`app.py` lines 159-186): append the user
turn to memory and store, call the completion provider, on exception
substitute the apology and surface `f"OpenAI error: {exc}"`, then append
the assistant turn to memory and store.  `apiResult` is the outcome of the
external `client.chat.completions.create` call; the second component of
the result collects the error messages shown via `st.error`. -/
def handle_prompt (st : SessionState) (username domain prompt : String)
    (apiResult : Except String String) : SessionState × List String :=
  let st₁ : SessionState :=
    ⟨st.transcript ++ [⟨"user", prompt⟩],
     save_msg st.db username domain "user" prompt⟩
  let replyErrs : String × List String :=
    match apiResult with
    | .ok r => (r, [])
    | .error exc => (apology_text, ["OpenAI error: " ++ exc])
  (⟨st₁.transcript ++ [⟨"assistant", replyErrs.1⟩],
    save_msg st₁.db username domain "assistant" replyErrs.1⟩,
   replyErrs.2)

/-- Outcome shown in the sidebar by the registration handler. -/
inductive RegOutcome where
  | registered
  | fillBothFields
deriving Repr, DecidableEq

/-- The registration submit handler (`app.py` lines 100-124): if both
fields are non-empty (Python truthiness of strings), hash the password and
`add_user`; otherwise show the retry warning and leave the store alone.
`hash` stands for `hashlib.sha256(...).hexdigest()`, an external
function. -/
def register_submit (users : List UserRow) (hash : String → String)
    (new_user new_pwd : String) : List UserRow × RegOutcome :=
  if new_user ≠ "" ∧ new_pwd ≠ "" then
    (add_user users new_user (hash new_pwd), RegOutcome.registered)
  else
    (users, RegOutcome.fillBothFields)

/-- Python truthiness of `os.getenv`'s result: falsy when the variable is
unset (`None`) or set to the empty string. -/
def truthyEnv : Option String → Bool
  | none => false
  | some s => !(s == "")

/-- The validation-and-build prefix of `main` in `finetune.py` (lines
53-69): unset or empty `CURRENT_USER`/`CURRENT_DOMAIN` raises before
anything else; an empty loaded history raises before the dataset file is
written; otherwise the dataset file content is produced.  `.error` carries
the `RuntimeError` message, `.ok` the content of `dataset.jsonl`. -/
def finetune_main (env_user env_domain : Option String) (db : ChatDB) :
    Except String String :=
  if !(truthyEnv env_user) || !(truthyEnv env_domain) then
    Except.error "CURRENT_USER and CURRENT_DOMAIN environment variables must be set"
  else
    let user := env_user.getD ""
    let domain := env_domain.getD ""
    let history := load_history db user domain
    if history.isEmpty then
      Except.error "No chat history found for the specified user and domain"
    else
      Except.ok (build_dataset_from_history history domain)

/-- Rows listed in strictly ascending id order. -/
def idSorted (l : List ChatRow) : Prop :=
  l.Pairwise fun a b => a.id < b.id

/-- Store invariant: rows are in ascending id order (insertion order of an
AUTOINCREMENT table) and every assigned id is below the next one. -/
def RowsWF (db : ChatDB) : Prop :=
  idSorted db.rows ∧ ∀ r ∈ db.rows, r.id < db.nextId

theorem rowsWF_init : RowsWF init_db := by
  constructor
  · exact List.Pairwise.nil
  · intro r hr
    simp [init_db] at hr

theorem insertById_eq_cons (r : ChatRow) (l : List ChatRow)
    (h : ∀ s ∈ l, r.id < s.id) : insertById r l = r :: l := by
  cases l with
  | nil => rfl
  | cons s rest =>
    have hle : r.id ≤ s.id := Nat.le_of_lt (h s (by simp))
    simp [insertById, hle]

theorem sortById_eq_self (l : List ChatRow) (h : idSorted l) : sortById l = l := by
  induction l with
  | nil => rfl
  | cons r rest ih =>
    obtain ⟨h1, h2⟩ := List.pairwise_cons.mp h
    rw [sortById, ih h2]
    exact insertById_eq_cons r rest h1

theorem rowsWF_save (db : ChatDB) (h : RowsWF db) (u d role c : String) :
    RowsWF (save_msg db u d role c) := by
  obtain ⟨hs, hlt⟩ := h
  constructor
  · refine List.pairwise_append.mpr ⟨hs, List.pairwise_singleton _ _, ?_⟩
    intro a ha b hb
    simp only [List.mem_singleton] at hb
    subst hb
    exact hlt a ha
  · intro r hr
    simp only [save_msg, List.mem_append, List.mem_singleton] at hr
    rcases hr with hr | hr
    · exact Nat.lt_succ_of_lt (hlt r hr)
    · subst hr
      exact Nat.lt_succ_self _

theorem load_history_save (db : ChatDB) (h : RowsWF db)
    (u d role c u' d' : String) :
    load_history (save_msg db u d role c) u' d'
      = load_history db u' d'
        ++ (if u == u' && d == d' then [⟨role, c⟩] else []) := by
  obtain ⟨hs, hlt⟩ := h
  have hsortf : idSorted (db.rows.filter fun r =>
      r.username == u' && r.domain == d') := hs.filter _
  unfold load_history save_msg
  rw [List.filter_append]
  by_cases hmatch : (u == u' && d == d') = true
  · have hfnew : List.filter (fun r => r.username == u' && r.domain == d')
        ([⟨db.nextId, u, d, role, c⟩] : List ChatRow)
        = ([⟨db.nextId, u, d, role, c⟩] : List ChatRow) := by
      simp only [List.filter]
      simp [hmatch]
    rw [hfnew, if_pos hmatch]
    have hsorted : idSorted ((db.rows.filter fun r =>
        r.username == u' && r.domain == d')
        ++ ([⟨db.nextId, u, d, role, c⟩] : List ChatRow)) := by
      refine List.pairwise_append.mpr ⟨hsortf, List.pairwise_singleton _ _, ?_⟩
      intro a ha b hb
      simp only [List.mem_singleton] at hb
      subst hb
      exact hlt a (List.mem_of_mem_filter ha)
    rw [sortById_eq_self _ hsorted, sortById_eq_self _ hsortf, List.map_append]
    rfl
  · have hb : (u == u' && d == d') = false := by
      simpa using hmatch
    have hfnew : List.filter (fun r => r.username == u' && r.domain == d')
        ([⟨db.nextId, u, d, role, c⟩] : List ChatRow) = [] := by
      simp [List.filter, hb]
    rw [hfnew, if_neg hmatch, List.append_nil, List.append_nil]

theorem load_applyOps (ops : List SaveOp) :
    ∀ db : ChatDB, RowsWF db → ∀ u d : String,
    load_history (applyOps db ops) u d
      = load_history db u d
        ++ (ops.filter fun o => o.username == u && o.domain == d).map
            fun o => ⟨o.role, o.content⟩ := by
  induction ops with
  | nil =>
    intro db _ u d
    simp [applyOps]
  | cons o rest ih =>
    intro db hwf u d
    have hstep : applyOps db (o :: rest)
        = applyOps (save_msg db o.username o.domain o.role o.content) rest := rfl
    rw [hstep, ih _ (rowsWF_save db hwf o.username o.domain o.role o.content) u d,
      load_history_save db hwf o.username o.domain o.role o.content u d]
    rw [List.append_assoc]
    congr 1
    by_cases hmatch : (o.username == u && o.domain == d) = true
    · rw [if_pos hmatch]
      rw [List.filter_cons]
      simp [hmatch]
    · rw [if_neg hmatch]
      rw [List.filter_cons]
      have hb : (o.username == u && o.domain == d) = false := by
        simpa using hmatch
      simp [hb]

theorem build_records_nil (d : String) : build_records [] d = [] := rfl

theorem build_records_single (m : Msg) (d : String) : build_records [m] d = [] := by
  show (List.range' 0 ((1 + 1) / 2) 2).filterMap _ = []
  norm_num [List.range']

theorem build_records_cons_cons (q a : Msg) (rest : List Msg) (d : String) :
    build_records (q :: a :: rest) d
      = ⟨prompt_template d q.content, a.content⟩ :: build_records rest d := by
  unfold build_records
  have hlen : ((q :: a :: rest).length + 1) / 2 = (rest.length + 1) / 2 + 1 := by
    simp [List.length_cons]
    omega
  rw [hlen, List.range'_succ, List.filterMap_cons]
  have htail : List.range' (0 + 2) ((rest.length + 1) / 2) 2
      = (List.range' 0 ((rest.length + 1) / 2) 2).map (2 + ·) := by
    rw [List.map_add_range']
  rw [htail, List.filterMap_map]
  simp only [List.getElem?_cons_zero, List.getElem?_cons_succ]
  refine congrArg _ ?_
  refine congrArg (fun f => List.filterMap f (List.range' 0 ((rest.length + 1) / 2) 2)) ?_
  funext i
  simp only [Function.comp_apply]
  have h1 : 2 + i = i + 2 := Nat.add_comm 2 i
  rw [h1]
  simp only [List.getElem?_cons_succ]

theorem hexDigit_ne_newline (n : Nat) : hexDigit n ≠ '\n' := by
  unfold hexDigit
  split <;> decide

theorem newline_not_mem_jsonEscapeChar (c : Char) : '\n' ∉ (jsonEscapeChar c).data := by
  unfold jsonEscapeChar
  split_ifs with h1 h2 h3 h4 h5 h6 h7 h8
  · decide
  · decide
  · decide
  · decide
  · decide
  · decide
  · decide
  · intro hmem
    simp only [String.data, List.mem_cons, List.mem_singleton] at hmem
    rcases hmem with h | h | h | h | h | h
    · exact absurd h (by decide)
    · exact absurd h (by decide)
    · exact absurd h (by decide)
    · exact absurd h (by decide)
    · exact hexDigit_ne_newline _ h.symm
    · rcases h with h | h
      · exact hexDigit_ne_newline _ h.symm
      · exact absurd h (by simp)
  · intro hmem
    have hc : '\n' = c := by simpa [String.singleton] using hmem
    exact h3 hc.symm

theorem newline_not_mem_jsonEscapeList (cs : List Char) :
    '\n' ∉ (jsonEscapeList cs).data := by
  induction cs with
  | nil => simp [jsonEscapeList]
  | cons c rest ih =>
    rw [jsonEscapeList]
    intro hmem
    rw [String.data_append] at hmem
    rcases List.mem_append.mp hmem with h | h
    · exact newline_not_mem_jsonEscapeChar c h
    · exact ih h

theorem newline_not_mem_dumpsRecord (r : TrainingRecord) :
    '\n' ∉ (dumpsRecord r).data := by
  unfold dumpsRecord jsonEscape
  intro hmem
  simp only [String.data_append, List.mem_append] at hmem
  rcases hmem with ((((h | h) | h) | h) | h)
  · exact absurd h (by decide)
  · exact newline_not_mem_jsonEscapeList _ h
  · exact absurd h (by decide)
  · exact newline_not_mem_jsonEscapeList _ h
  · exact absurd h (by decide)

theorem jsonEscapeChar_eq_self (c : Char) (hge : 0x20 ≤ c.toNat)
    (hq : c ≠ '"') (hb : c ≠ '\\') : jsonEscapeChar c = String.singleton c := by
  unfold jsonEscapeChar
  have hlt : ¬ c.toNat < 0x20 := by omega
  have hn : c ≠ '\n' := by
    intro h
    subst h
    exact absurd hge (by decide)
  have hr : c ≠ '\r' := by
    intro h
    subst h
    exact absurd hge (by decide)
  have ht : c ≠ '\t' := by
    intro h
    subst h
    exact absurd hge (by decide)
  have h08 : c ≠ '\x08' := by
    intro h
    subst h
    exact absurd hge (by decide)
  have h0c : c ≠ '\x0c' := by
    intro h
    subst h
    exact absurd hge (by decide)
  simp [hq, hb, hn, hr, ht, h08, h0c, hlt]

theorem build_records_length (d : String) :
    ∀ h : List Msg, (build_records h d).length = h.length / 2
  | [] => by simp [build_records_nil]
  | [m] => by simp [build_records_single]
  | q :: a :: rest => by
    rw [build_records_cons_cons]
    simp only [List.length_cons]
    rw [build_records_length d rest]
    omega

theorem build_records_roles_irrelevant (d : String) :
    ∀ h₁ h₂ : List Msg, h₁.map Msg.content = h₂.map Msg.content →
      build_records h₁ d = build_records h₂ d
  | [], [], _ => rfl
  | [m], [m'], _ => by rw [build_records_single, build_records_single]
  | q :: a :: rest, q' :: a' :: rest', hc => by
    simp only [List.map_cons, List.cons.injEq] at hc
    obtain ⟨hq, ha, hrest⟩ := hc
    rw [build_records_cons_cons, build_records_cons_cons, hq, ha,
      build_records_roles_irrelevant d rest rest' hrest]
  | [], _ :: _, hc => by simp at hc
  | _ :: _, [], hc => by simp at hc
  | [_], _ :: _ :: _, hc => by simp at hc
  | _ :: _ :: _, [_], hc => by simp at hc

/-- C1: the dataset builder walks the conversation in non-overlapping pairs
from index 0, making the even-index message the question and the next one
the answer; each record's prompt is the domain-conditioned template
concatenated with the question's content and its completion is the
answer's content verbatim; in particular `[u1, a1, u2, a2]` yields exactly
the two expected records. -/
theorem claim_C1_pairwise_records :
    (∀ (q a : Msg) (rest : List Msg) (d : String),
      build_records (q :: a :: rest) d
        = ⟨prompt_template d q.content, a.content⟩ :: build_records rest d)
    ∧ (∀ (u1 a1 u2 a2 : Msg) (d : String),
      build_records [u1, a1, u2, a2] d
        = [⟨prompt_template d u1.content, a1.content⟩,
           ⟨prompt_template d u2.content, a2.content⟩]) := by
  constructor
  · exact build_records_cons_cons
  · intro u1 a1 u2 a2 d
    rw [build_records_cons_cons, build_records_cons_cons, build_records_nil]

/-- C2: replaying any sequence of `save_msg` calls against the freshly
initialised store, `load_history` for a partition returns exactly the
messages saved to that partition, as `(role, content)` pairs, in append
order — no loss, duplication or reordering — and a partition nothing was
appended to yields the empty list rather than an error. -/
theorem claim_C2_load_returns_appends (ops : List SaveOp) (u d : String) :
    load_history (applyOps init_db ops) u d
      = (ops.filter fun o => o.username == u && o.domain == d).map
          fun o => ⟨o.role, o.content⟩ := by
  rw [load_applyOps ops init_db rowsWF_init u d]
  have hempty : load_history init_db u d = [] := rfl
  rw [hempty, List.nil_append]

/-- C3: for a username not yet in the store, `add_user(u, h1)` followed by
`add_user(u, h2)` leaves the second call a no-op; the store holds exactly
one record for `u` and it carries the original hash `h1`, as `get_users`
then shows. -/
theorem claim_C3_duplicate_add_user_noop (users : List UserRow)
    (u h1 h2 : String) (hfresh : ∀ r ∈ users, r.username ≠ u) :
    add_user (add_user users u h1) u h2 = add_user users u h1
    ∧ (get_users (add_user (add_user users u h1) u h2)).filter
        (fun r => r.username == u) = [⟨u, h1⟩] := by
  have hany : (users.any fun r => r.username == u) = false := by
    rw [List.any_eq_false]
    intro r hr
    simpa using hfresh r hr
  have hfirst : add_user users u h1 = users ++ [⟨u, h1⟩] := by
    unfold add_user
    rw [hany]
    rfl
  have hany₂ : ((users ++ [⟨u, h1⟩] : List UserRow).any
      fun r => r.username == u) = true := by
    rw [List.any_eq_true]
    exact ⟨⟨u, h1⟩, by simp, by simp⟩
  have hsecond : add_user (add_user users u h1) u h2 = add_user users u h1 := by
    rw [hfirst]
    unfold add_user
    rw [if_pos hany₂]
  refine ⟨hsecond, ?_⟩
  rw [hsecond]
  unfold get_users
  rw [hfirst, List.filter_append]
  have hleft : users.filter (fun r => r.username == u) = [] := by
    rw [List.filter_eq_nil_iff]
    intro r hr
    simpa using hfresh r hr
  have hright : (([⟨u, h1⟩] : List UserRow)).filter
      (fun r => r.username == u) = [⟨u, h1⟩] := by
    simp [List.filter]
  rw [hleft, hright, List.nil_append]

/-- Witness for C3: the spec scenario — register "ana" with the hash of
"pw1", then attempt "ana" again with the hash of "pw2". -/
theorem claim_C3_duplicate_add_user_noop_witness :
    add_user (add_user [] "ana" "hash_pw1") "ana" "hash_pw2"
      = add_user [] "ana" "hash_pw1"
    ∧ (get_users (add_user (add_user [] "ana" "hash_pw1") "ana" "hash_pw2")).filter
        (fun r => r.username == "ana") = [⟨"ana", "hash_pw1"⟩] :=
  claim_C3_duplicate_add_user_noop [] "ana" "hash_pw1" "hash_pw2" (by simp)

/-- C4: when the completion call raises, the submission handler appends the
user turn and then exactly one assistant turn carrying the fixed apology —
to the in-memory transcript and, with the next two auto-increment ids, to
the durable store — and surfaces exactly the `OpenAI error` message; the
handler returns normally, leaving the session usable. -/
theorem claim_C4_failure_appends_one_apology (st : SessionState)
    (u d p exc : String) :
    handle_prompt st u d p (Except.error exc)
      = (⟨st.transcript ++ [⟨"user", p⟩, ⟨"assistant", apology_text⟩],
          ⟨st.db.rows ++ [⟨st.db.nextId, u, d, "user", p⟩,
            ⟨st.db.nextId + 1, u, d, "assistant", apology_text⟩],
           st.db.nextId + 2⟩⟩,
         ["OpenAI error: " ++ exc]) := by
  unfold handle_prompt save_msg
  simp

/-- C5: for every conversation the builder produces exactly
`⌊length / 2⌋` records and no error: the final unpaired message of an
odd-length conversation is silently dropped ( `[u1, a1, u2]` yields only
the `(u1, a1)` record) and the empty conversation yields the empty
result. -/
theorem claim_C5_odd_tail_dropped :
    (∀ (h : List Msg) (d : String), (build_records h d).length = h.length / 2)
    ∧ (∀ d : String, build_records [] d = [])
    ∧ (∀ (u1 a1 u2 : Msg) (d : String),
        build_records [u1, a1, u2] d
          = [⟨prompt_template d u1.content, a1.content⟩]) := by
  refine ⟨fun h d => build_records_length d h, fun d => build_records_nil d, ?_⟩
  intro u1 a1 u2 d
  rw [build_records_cons_cons, build_records_single]

/-- C6: the dataset builder is a pure function of the conversation and the
domain: invocations on identical inputs produce byte-for-byte identical
serialized output. -/
theorem claim_C6_deterministic (h₁ h₂ : List Msg) (d₁ d₂ : String)
    (hh : h₁ = h₂) (hd : d₁ = d₂) :
    build_dataset_from_history h₁ d₁ = build_dataset_from_history h₂ d₂ := by
  rw [hh, hd]

/-- Witness for C6 at a concrete conversation and domain. -/
theorem claim_C6_deterministic_witness :
    build_dataset_from_history [⟨"user", "კითხვა"⟩, ⟨"assistant", "პასუხი"⟩] "იურისტი"
      = build_dataset_from_history [⟨"user", "კითხვა"⟩, ⟨"assistant", "პასუხი"⟩] "იურისტი" :=
  claim_C6_deterministic _ _ _ _ rfl rfl

/-- C7: writing the dataset file replaces any prior content with one
`json.dumps` line per record, in input order; no serialized record ever
contains a raw newline (so the file is genuinely newline-delimited, one
record per line), and every character at or above U+0020 other than `"`
and `\` — in particular all non-ASCII text — is emitted verbatim,
unescaped. -/
theorem claim_C7_jsonl_serialization :
    (∀ (prior : Option String) (h : List Msg) (d : String),
      write_dataset prior h d
        = some (String.join ((build_records h d).map fun r => dumpsRecord r ++ "\n")))
    ∧ (∀ r : TrainingRecord, '\n' ∉ (dumpsRecord r).data)
    ∧ (∀ c : Char, 0x20 ≤ c.toNat → c ≠ '"' → c ≠ '\\' →
        jsonEscapeChar c = String.singleton c) := by
  refine ⟨fun prior h d => rfl, newline_not_mem_dumpsRecord, ?_⟩
  exact jsonEscapeChar_eq_self

/-- Witness for C7 at a concrete Georgian character. -/
theorem claim_C7_jsonl_serialization_witness :
    jsonEscapeChar 'შ' = String.singleton 'შ'
    ∧ '\n' ∉ (dumpsRecord ⟨"a\nb", "c"⟩).data :=
  ⟨claim_C7_jsonl_serialization.2.2 'შ' (by decide) (by decide) (by decide),
   claim_C7_jsonl_serialization.2.1 ⟨"a\nb", "c"⟩⟩

/-- C8: the registration handler adds no user and shows the retry warning
when either submitted field is empty (the interaction continues), and when
both are non-empty it stores the user via `add_user` under the hash of the
password — so a fresh username is stored as exactly `(username,
hash(password))`. -/
theorem claim_C8_registration_validation (users : List UserRow)
    (hash : String → String) (nu np : String) :
    (nu = "" ∨ np = "" →
      register_submit users hash nu np = (users, RegOutcome.fillBothFields))
    ∧ (nu ≠ "" → np ≠ "" →
      register_submit users hash nu np
        = (add_user users nu (hash np), RegOutcome.registered))
    ∧ ((∀ r ∈ users, r.username ≠ nu) → nu ≠ "" → np ≠ "" →
      (register_submit users hash nu np).1 = users ++ [⟨nu, hash np⟩]) := by
  refine ⟨?_, ?_, ?_⟩
  · intro hempty
    unfold register_submit
    rw [if_neg]
    intro hcontra
    rcases hempty with hempty | hempty
    · exact hcontra.1 hempty
    · exact hcontra.2 hempty
  · intro hnu hnp
    unfold register_submit
    rw [if_pos ⟨hnu, hnp⟩]
  · intro hfresh hnu hnp
    unfold register_submit
    rw [if_pos ⟨hnu, hnp⟩]
    show add_user users nu (hash np) = users ++ [⟨nu, hash np⟩]
    unfold add_user
    rw [if_neg]
    rw [List.any_eq_true]
    rintro ⟨r, hr, hrq⟩
    exact hfresh r hr (by simpa using hrq)

/-- Witness for C8 at concrete inputs. -/
theorem claim_C8_registration_validation_witness :
    register_submit [] (fun s => s ++ "#") "ana" ""
      = ([], RegOutcome.fillBothFields)
    ∧ (register_submit [] (fun s => s ++ "#") "ana" "pw1").1
      = [⟨"ana", "pw1#"⟩] :=
  ⟨(claim_C8_registration_validation [] (fun s => s ++ "#") "ana" "").1
      (Or.inr rfl),
   (claim_C8_registration_validation [] (fun s => s ++ "#") "ana" "pw1").2.2
      (by simp) (by decide) (by decide)⟩

/-- C9: the fine-tune entry point raises before doing anything else when
`CURRENT_USER` or `CURRENT_DOMAIN` is unset or empty, and raises — before
any dataset content is produced or training attempted — when the loaded
history for the pair is empty. -/
theorem claim_C9_main_empty_history_fatal :
    (∀ (env_user env_domain : Option String) (db : ChatDB),
      truthyEnv env_user = false ∨ truthyEnv env_domain = false →
      finetune_main env_user env_domain db
        = Except.error
            "CURRENT_USER and CURRENT_DOMAIN environment variables must be set")
    ∧ (∀ (u d : String) (db : ChatDB), u ≠ "" → d ≠ "" →
      load_history db u d = [] →
      finetune_main (some u) (some d) db
        = Except.error
            "No chat history found for the specified user and domain") := by
  constructor
  · intro env_user env_domain db hfalsy
    unfold finetune_main
    rw [if_pos]
    rcases hfalsy with hfalsy | hfalsy
    · rw [hfalsy]
      rfl
    · rw [hfalsy]
      simp
  · intro u d db hu hd hhist
    unfold finetune_main
    have htu : truthyEnv (some u) = true := by
      simp [truthyEnv, hu]
    have htd : truthyEnv (some d) = true := by
      simp [truthyEnv, hd]
    rw [htu, htd]
    simp only [Bool.not_true, Bool.or_self, Bool.false_eq_true, if_false]
    show (if (load_history db u d).isEmpty then _ else _) = _
    rw [hhist]
    rfl

/-- Witness for C9 at concrete inputs: a missing `CURRENT_USER` and an
empty history both abort. -/
theorem claim_C9_main_empty_history_fatal_witness :
    finetune_main none (some "იურისტი") init_db
      = Except.error
          "CURRENT_USER and CURRENT_DOMAIN environment variables must be set"
    ∧ finetune_main (some "ana") (some "იურისტი") init_db
      = Except.error
          "No chat history found for the specified user and domain" :=
  ⟨claim_C9_main_empty_history_fatal.1 none (some "იურისტი") init_db
      (Or.inl rfl),
   claim_C9_main_empty_history_fatal.2 "ana" "იურისტი" init_db
      (by decide) (by decide) rfl⟩

/-- C10: the produced dataset depends only on the ordered message contents
and the domain, never on the role fields: conversations with pairwise
equal contents but arbitrary roles yield identical records and identical
serialized output. -/
theorem claim_C10_roles_never_read (h₁ h₂ : List Msg) (d : String)
    (hc : h₁.map Msg.content = h₂.map Msg.content) :
    build_records h₁ d = build_records h₂ d
    ∧ build_dataset_from_history h₁ d = build_dataset_from_history h₂ d := by
  have hrec := build_records_roles_irrelevant d h₁ h₂ hc
  refine ⟨hrec, ?_⟩
  unfold build_dataset_from_history
  rw [hrec]

/-- Witness for C10: broken alternation (assistant first) with the same
contents yields the same dataset. -/
theorem claim_C10_roles_never_read_witness :
    build_records [⟨"user", "x"⟩, ⟨"assistant", "y"⟩] "d"
      = build_records [⟨"assistant", "x"⟩, ⟨"user", "y"⟩] "d"
    ∧ build_dataset_from_history [⟨"user", "x"⟩, ⟨"assistant", "y"⟩] "d"
      = build_dataset_from_history [⟨"assistant", "x"⟩, ⟨"user", "y"⟩] "d" :=
  claim_C10_roles_never_read _ _ "d" rfl

end ExpertTune
